import Mathlib

/-!
Shallow embedding of `src/app.py` of the dash_vendas repository: the
`load_data` preparation pipeline (lines 11-49), the sidebar filter pipeline
(lines 90-112), the metric cards (lines 126-131), the group-by aggregations
feeding the charts (lines 157-217) and the CSV export projection
(lines 228-236).

Modelling conventions:
* numbers are exact rationals (the guarded divisions of the source are then
  total functions, with no NaN or infinity);
* a raw numeric CSV cell is either a parsed number or an unparsable text
  (`CellVal`), matching the object-dtype column pandas produces when a
  numeric column contains a non-numeric cell;
* a pandas exception is modelled with `Except`; the try/except of
  `load_data` maps any error to the empty dataset plus a message;
* a pandas Timestamp is a calendar date plus a sub-day component: the date
  filter compares at date granularity (line 92 uses `.dt.date`) while the
  sort at line 43 orders by the full timestamp.
-/

/-- A pandas Timestamp: calendar date plus a sub-day component `tod`. -/
structure DTime where
  year : Int
  month : Int
  day : Int
  tod : Int
deriving DecidableEq

/-- Calendar-date part of a timestamp, as produced by `Series.dt.date`. -/
def dateOfDTime (t : DTime) : Int × Int × Int := (t.year, t.month, t.day)

/-- Lexicographic order on calendar dates (Python `datetime.date` comparison). -/
def dateTupLe (a b : Int × Int × Int) : Bool :=
  if a.1 < b.1 then true
  else if b.1 < a.1 then false
  else if a.2.1 < b.2.1 then true
  else if b.2.1 < a.2.1 then false
  else decide (a.2.2 ≤ b.2.2)

/-- Lexicographic order on full timestamps (pandas Timestamp comparison),
used by `sort_values` on the `data_venda` column. -/
def dtLe (a b : DTime) : Bool :=
  if a.year < b.year then true
  else if b.year < a.year then false
  else if a.month < b.month then true
  else if b.month < a.month then false
  else if a.day < b.day then true
  else if b.day < a.day then false
  else decide (a.tod ≤ b.tod)

/-- Zero-padded two-digit rendering of a month number, as produced by
`to_period` formatting. -/
def pad2 (n : Int) : String := if n < 10 then "0" ++ toString n else toString n

/-- The `mes_ano` derived column of app.py line 25: the "YYYY-MM" string of
`data_venda.dt.to_period` converted to text. -/
def mesAno (t : DTime) : String := toString t.year ++ "-" ++ pad2 t.month

/-- A raw cell of a numeric CSV column, as `pd.read_csv` leaves it:
a parsed number; a missing/NA cell, which becomes NaN in a float column and
does NOT raise, flowing through the arithmetic of lines 28-36 as NaN until
the per-column `fillna(0)` of lines 39-41 zeroes it; or unparsable text,
which makes the column object-dtype and raises at the arithmetic of
lines 28-30. -/
inductive CellVal where
  | num (q : ℚ)
  | nan
  | text (s : String)
deriving DecidableEq

/-- A pandas float value: a number or NaN.  Infinities cannot arise in this
pipeline: the only division is the margin, guarded by a Python `!= 0` test
(which NaN passes), and a guarded division with a NaN or nonzero operand
yields NaN or a finite number. -/
inductive PVal where
  | num (q : ℚ)
  | nan
deriving DecidableEq

/-- NaN-propagating multiplication (lines 28-29). -/
def pMul : PVal → PVal → PVal
  | PVal.num a, PVal.num b => PVal.num (a * b)
  | _, _ => PVal.nan

/-- NaN-propagating subtraction (line 30). -/
def pSub : PVal → PVal → PVal
  | PVal.num a, PVal.num b => PVal.num (a - b)
  | _, _ => PVal.nan

/-- NaN-propagating division (line 34). -/
def pDiv : PVal → PVal → PVal
  | PVal.num a, PVal.num b => PVal.num (a / b)
  | _, _ => PVal.nan

/-- The Python test `x != 0` of line 34: NaN compares unequal to 0, so a NaN
revenue takes the division branch (whose NaN result line 41 later zeroes). -/
def pNeZero : PVal → Bool
  | PVal.num q => decide (q ≠ 0)
  | PVal.nan => true

/-- The `to_numeric(errors='coerce').fillna(0)` step of lines 39-41, applied
to one cell of one numeric column: a number stays itself, NaN becomes 0. -/
def fillna0 : PVal → ℚ
  | PVal.num q => q
  | PVal.nan => 0

/-- One raw row of the input CSV `vendas2018_2023.csv`, after the
`data_venda` column has been parsed by `pd.to_datetime` (line 19). -/
structure RawRow where
  data_venda : DTime
  cliente : Option String
  vendedor : String
  produto : String
  categoria : String
  fornecedor : String
  quantidade : CellVal
  valor_venda : CellVal
  valor_custo : CellVal
deriving DecidableEq

/-- One prepared row of `df_raw`, with the derived columns of lines 22-36. -/
structure Row where
  data_venda : DTime
  cliente : Option String
  vendedor : String
  produto : String
  categoria : String
  fornecedor : String
  ano : Int
  mes : Int
  mes_ano : String
  quantidade : ℚ
  valor_venda : ℚ
  valor_custo : ℚ
  faturamento : ℚ
  custo_total : ℚ
  lucro : ℚ
  margem_pct : ℚ
deriving DecidableEq

/-- Reading a raw numeric cell into a pandas float value.  A missing cell is
NaN and does not raise.  A text cell raises: in pandas the object-dtype
column meets the elementwise arithmetic of lines 28-30 and a `str` operand
raises `TypeError` (directly for `str * float` and `str - str`; a
`str * int` first yields a repeated string which then raises at the
subtraction of line 30).  Either way that exception fires before the
`to_numeric` coercion of lines 39-41 is reached. -/
def cellVal : CellVal → Except String PVal
  | CellVal.num q => Except.ok (PVal.num q)
  | CellVal.nan => Except.ok PVal.nan
  | CellVal.text s => Except.error ("unsupported operand type for numeric column: " ++ s)

/-- Per-row image of the derived-column computations of app.py lines 22-41:
`ano`, `mes`, `mes_ano` (lines 22-25), `faturamento`, `custo_total`, `lucro`
(lines 28-30, NaN-propagating), the guarded `margem_pct` (lines 33-36, where
a NaN revenue passes the `!= 0` test), and finally the per-column
`to_numeric(errors='coerce').fillna(0)` of lines 39-41, which zeroes NaN in
the base and derived columns INDEPENDENTLY — it runs after the derived
columns were computed from the raw cells, so a row with a missing cell can
end with derived values that no longer satisfy the defining formulas. -/
def prepareRow (rr : RawRow) : Except String Row :=
  match cellVal rr.quantidade, cellVal rr.valor_venda, cellVal rr.valor_custo with
  | Except.ok q, Except.ok vv, Except.ok vc =>
      Except.ok
        { data_venda := rr.data_venda
          cliente := rr.cliente
          vendedor := rr.vendedor
          produto := rr.produto
          categoria := rr.categoria
          fornecedor := rr.fornecedor
          ano := rr.data_venda.year
          mes := rr.data_venda.month
          mes_ano := mesAno rr.data_venda
          quantidade := fillna0 q
          valor_venda := fillna0 vv
          valor_custo := fillna0 vc
          faturamento := fillna0 (pMul q vv)
          custo_total := fillna0 (pMul q vc)
          lucro := fillna0 (pSub (pMul q vv) (pMul q vc))
          margem_pct := fillna0 (if pNeZero (pMul q vv)
            then pDiv (pSub (pMul q vv) (pMul q vc)) (pMul q vv)
            else PVal.num 0) }
  | Except.error e, _, _ => Except.error e
  | _, Except.error e, _ => Except.error e
  | _, _, Except.error e => Except.error e

/-- Prepare every row; the first raising row aborts the whole computation,
as the columnwise pandas operation does. -/
def mapPrepare : List RawRow → Except String (List Row)
  | [] => Except.ok []
  | rr :: rs =>
      match prepareRow rr, mapPrepare rs with
      | Except.ok r, Except.ok rest => Except.ok (r :: rest)
      | Except.error e, _ => Except.error e
      | Except.ok _, Except.error e => Except.error e

/-- Row order by full timestamp, used by `sort_values` on `data_venda`. -/
def rowLe (a b : Row) : Prop := dtLe a.data_venda b.data_venda = true

instance : DecidableRel rowLe := fun a b => instDecidableEqBool (dtLe a.data_venda b.data_venda) true

/-- The external source as seen by `load_data`: the file may be missing
(`FileNotFoundError`, line 44), structurally unreadable (any other exception
of `pd.read_csv` or `pd.to_datetime`, line 47), or a list of raw rows. -/
inductive Source where
  | missing
  | unreadable (e : String)
  | rows (rs : List RawRow)
deriving DecidableEq

/-- The `load_data` function of app.py lines 11-49: prepare the rows and
sort them ascending by `data_venda`, returning the dataset plus the
`st.error` message surfaced to the user (if any).  The ascending sort of
line 43 is modelled by a stable insertion sort; pandas uses
`sort_values` with its default `kind` there, whose tie order this model
reproduces exactly for small inputs only.  Both except branches
(lines 44-49) return an empty dataset together with a message. -/
def load_data : Source → List Row × Option String
  | Source.missing =>
      ([], some "Arquivo vendas2018_2023.csv nao encontrado. Verifique se ele esta na mesma pasta do app.py.")
  | Source.unreadable e => ([], some ("Erro ao carregar dados: " ++ e))
  | Source.rows rs =>
      match mapPrepare rs with
      | Except.ok out => (List.insertionSort rowLe out, none)
      | Except.error e => ([], some ("Erro ao carregar dados: " ++ e))

/-- The sidebar filter criteria of app.py lines 64-88: date range, the five
categorical selections (a Python empty list is falsy, so an empty selection
skips its filter), and the client search text (an empty string is falsy). -/
structure Criteria where
  start_date : Int × Int × Int
  end_date : Int × Int × Int
  selected_years : List Int
  selected_cats : List String
  selected_sellers : List String
  selected_suppliers : List String
  selected_products : List String
  client_search : String
deriving DecidableEq

/-- Case-insensitive single-character match of one pattern character, with
the regex wildcard: a dot matches any character (pandas
`Series.str.contains` leaves `regex=True` by default, so the search text is
a regular expression; `case=False` passes `re.IGNORECASE`). -/
def charMatches (p c : Char) : Bool := p = '.' || p.toLower = c.toLower

/-- Match the pattern characters against a prefix of the text. -/
def matchHere : List Char → List Char → Bool
  | [], _ => true
  | _ :: _, [] => false
  | p :: ps, c :: cs => charMatches p c && matchHere ps cs

/-- Search the pattern at every position of the text, as `re.search` does.
This models Python regular expressions faithfully for patterns whose only
metacharacter is the dot. -/
def dotSearch (ps : List Char) : List Char → Bool
  | [] => matchHere ps []
  | c :: cs => matchHere ps (c :: cs) || dotSearch ps cs

/-- The client test of app.py line 112:
`str.contains(client_search, case=False, na=False)` on the `cliente` column.
A missing client (`na=False`) never matches. -/
def clientContains (pat : String) (cliente : Option String) : Bool :=
  match cliente with
  | none => false
  | some s => dotSearch pat.toList s.toList

/-- Search strings whose characters carry no regex metacharacter other than
the dot: on these, `dotSearch` models `re.search` exactly. -/
def regexMeta : List Char := ['\\', '^', '$', '|', '?', '*', '+', '(', ')', '[', ']', '\x7b', '\x7d']

/-- Decidable test that a search string is free of regex metacharacters
other than the dot. -/
def simpleSearch (p : String) : Bool := p.toList.all (fun ch => !(regexMeta.contains ch))

/-- Literal case-insensitive single-character match (no wildcard). -/
def litCharMatches (p c : Char) : Bool := p.toLower = c.toLower

/-- Literal case-insensitive prefix match. -/
def litMatchHere : List Char → List Char → Bool
  | [], _ => true
  | _ :: _, [] => false
  | p :: ps, c :: cs => litCharMatches p c && litMatchHere ps cs

/-- Literal case-insensitive substring search. -/
def litSearch (ps : List Char) : List Char → Bool
  | [] => litMatchHere ps []
  | c :: cs => litMatchHere ps (c :: cs) || litSearch ps cs

/-- Follows the words of the specification, for comparison with the
behaviour: the "case-insensitive contains" client test as a plain substring
test, with a missing client never matching. -/
def specClientSubstring (pat : String) (cliente : Option String) : Bool :=
  match cliente with
  | none => false
  | some s => litSearch pat.toList s.toList

/-- The conjunction of all filter predicates, as the claim reads: date
range inclusive at calendar-date granularity, each categorical allow-list
accepting everything when empty, and the client test skipped when the search
string is empty. -/
def conjPred (crit : Criteria) (r : Row) : Bool :=
  (dateTupLe crit.start_date (dateOfDTime r.data_venda)
      && dateTupLe (dateOfDTime r.data_venda) crit.end_date)
    && (crit.selected_years.isEmpty || crit.selected_years.contains r.ano)
    && (crit.selected_cats.isEmpty || crit.selected_cats.contains r.categoria)
    && (crit.selected_sellers.isEmpty || crit.selected_sellers.contains r.vendedor)
    && (crit.selected_suppliers.isEmpty || crit.selected_suppliers.contains r.fornecedor)
    && (crit.selected_products.isEmpty || crit.selected_products.contains r.produto)
    && (crit.client_search == "" || clientContains crit.client_search r.cliente)

/-- The filter pipeline of app.py lines 90-112 producing `df_filtered`: the
date mask first, then each categorical filter guarded by the truthiness of
its selection, then the client search guarded by the truthiness of the
search text. -/
def apply_filters (crit : Criteria) (rows : List Row) : List Row :=
  let d1 := rows.filter (fun r =>
    dateTupLe crit.start_date (dateOfDTime r.data_venda)
      && dateTupLe (dateOfDTime r.data_venda) crit.end_date)
  let d2 := if crit.selected_years.isEmpty then d1
    else d1.filter (fun r => crit.selected_years.contains r.ano)
  let d3 := if crit.selected_cats.isEmpty then d2
    else d2.filter (fun r => crit.selected_cats.contains r.categoria)
  let d4 := if crit.selected_sellers.isEmpty then d3
    else d3.filter (fun r => crit.selected_sellers.contains r.vendedor)
  let d5 := if crit.selected_suppliers.isEmpty then d4
    else d4.filter (fun r => crit.selected_suppliers.contains r.fornecedor)
  let d6 := if crit.selected_products.isEmpty then d5
    else d5.filter (fun r => crit.selected_products.contains r.produto)
  if crit.client_search == "" then d6
  else d6.filter (fun r => clientContains crit.client_search r.cliente)

/-- Total revenue of the filtered rows (app.py line 126). -/
def total_faturamento (rows : List Row) : ℚ := (rows.map (fun r => r.faturamento)).sum

/-- Total profit of the filtered rows (app.py line 127). -/
def total_lucro (rows : List Row) : ℚ := (rows.map (fun r => r.lucro)).sum

/-- Global margin with its zero guard (app.py line 128). -/
def margem_global (rows : List Row) : ℚ :=
  if 0 < total_faturamento rows then total_lucro rows / total_faturamento rows else 0

/-- Number of sales of the filtered view (app.py line 130). -/
def num_vendas (rows : List Row) : Nat := rows.length

/-- Average ticket with its zero guard (app.py line 131). -/
def ticket_medio (rows : List Row) : ℚ :=
  if 0 < num_vendas rows then total_faturamento rows / (num_vendas rows : ℚ) else 0

/-- Propositional form of a boolean comparator. -/
def boolRel {α : Type} (leB : α → α → Bool) : α → α → Prop := fun a b => leB a b = true

instance {α : Type} (leB : α → α → Bool) : DecidableRel (boolRel leB) :=
  fun a b => instDecidableEqBool (leB a b) true

/-- Lexicographic code-point order on character lists, the order Python uses
to compare strings (and pandas to sort string group keys). -/
def charsLe : List Char → List Char → Bool
  | [], _ => true
  | _ :: _, [] => false
  | a :: as, b :: bs =>
      if a.toNat < b.toNat then true
      else if b.toNat < a.toNat then false
      else charsLe as bs

/-- Lexicographic code-point order on strings. -/
def strLeB (a b : String) : Bool := charsLe a.toList b.toList

/-- Distinct group keys in ascending key order: pandas `groupby` keeps its
default `sort=True`, so the grouped result is indexed by the sorted distinct
keys, not by encounter order. -/
def groupKeysSorted {α : Type} [DecidableEq α] (leB : α → α → Bool)
    (key : Row → α) (rows : List Row) : List α :=
  List.insertionSort (boolRel leB) (rows.map key).dedup

/-- The `groupby(field)[metric].sum().reset_index()` step: one pair per
distinct key, in ascending key order, carrying the metric summed over the
rows of that group. -/
def groupSumSorted {α : Type} [DecidableEq α] (leB : α → α → Bool)
    (key : Row → α) (val : Row → ℚ) (rows : List Row) : List (α × ℚ) :=
  (groupKeysSorted leB key rows).map
    (fun k => (k, ((rows.filter (fun r => decide (key r = k))).map val).sum))

/-- Order on grouped pairs by summed value, used for `sort_values` on the
metric column. -/
def valLe {α : Type} (a b : α × ℚ) : Prop := a.2 ≤ b.2

instance {α : Type} : DecidableRel (valLe (α := α)) :=
  fun a b => inferInstanceAs (Decidable (a.2 ≤ b.2))

/-- The `sort_values(metric, ascending=False)` step.  pandas (see
`pandas.core.sorting.nargsort`) computes the ascending argsort of the column
and reverses it for a descending sort, so the relative order of tied values
is the reverse of the ascending result.  The ascending argsort is modelled
by a stable insertion sort, which is exact for the small arrays where
the default numpy sort is itself a stable insertion sort (below 17 elements). -/
def sortValuesDesc {α : Type} (l : List (α × ℚ)) : List (α × ℚ) :=
  (List.insertionSort valLe l).reverse

/-- The top-10 leaderboard pipeline
`groupby(key).faturamento.sum().reset_index().sort_values(faturamento, ascending=False).head(10)`
of app.py lines 164, 172 and 209. -/
def top10 (key : Row → String) (rows : List Row) : List (String × ℚ) :=
  (sortValuesDesc (groupSumSorted strLeB key (fun r => r.faturamento) rows)).take 10

/-- Top 10 categories by revenue (app.py line 164). -/
def fat_por_cat (rows : List Row) : List (String × ℚ) := top10 (fun r => r.categoria) rows

/-- Top 10 sellers by revenue (app.py line 172). -/
def fat_por_vend (rows : List Row) : List (String × ℚ) := top10 (fun r => r.vendedor) rows

/-- Top 10 products by revenue (app.py line 209). -/
def fat_por_prod (rows : List Row) : List (String × ℚ) := top10 (fun r => r.produto) rows

/-- Revenue grouped by month key, ascending (app.py line 157). -/
def fat_por_mes (rows : List Row) : List (String × ℚ) :=
  groupSumSorted strLeB (fun r => r.mes_ano) (fun r => r.faturamento) rows

/-- Profit grouped by category (app.py line 180). -/
def lucro_por_cat (rows : List Row) : List (String × ℚ) :=
  groupSumSorted strLeB (fun r => r.categoria) (fun r => r.lucro) rows

/-- Strict ascending key order: weakly below in the code-point order and
distinct. -/
def keyLt (a b : String) : Prop := boolRel strLeB a b ∧ a ≠ b

/-- The order in which a descending top-10 leaderboard lists its entries:
strictly greater summed value first, and among equal summed values the
strictly larger group key first. -/
def rankLt (a b : String × ℚ) : Prop := b.2 < a.2 ∨ (b.2 = a.2 ∧ keyLt b.1 a.1)

/-- One cell of the displayed/exported table. -/
inductive Cell where
  | dt (v : DTime)
  | txt (s : String)
  | opt (s : Option String)
  | num (q : ℚ)
  | int (n : Int)
deriving DecidableEq

/-- Column lookup on a prepared row: the full set of `df_raw` columns, by
their source names. -/
def cellOf (r : Row) (c : String) : Option Cell :=
  if c = "data_venda" then some (Cell.dt r.data_venda)
  else if c = "cliente" then some (Cell.opt r.cliente)
  else if c = "vendedor" then some (Cell.txt r.vendedor)
  else if c = "produto" then some (Cell.txt r.produto)
  else if c = "categoria" then some (Cell.txt r.categoria)
  else if c = "fornecedor" then some (Cell.txt r.fornecedor)
  else if c = "ano" then some (Cell.int r.ano)
  else if c = "mes" then some (Cell.int r.mes)
  else if c = "mes_ano" then some (Cell.txt r.mes_ano)
  else if c = "quantidade" then some (Cell.num r.quantidade)
  else if c = "valor_venda" then some (Cell.num r.valor_venda)
  else if c = "valor_custo" then some (Cell.num r.valor_custo)
  else if c = "faturamento" then some (Cell.num r.faturamento)
  else if c = "custo_total" then some (Cell.num r.custo_total)
  else if c = "lucro" then some (Cell.num r.lucro)
  else if c = "margem_pct" then some (Cell.num r.margem_pct)
  else none

/-- The column selection of app.py line 228. -/
def cols_view : List String :=
  ["data_venda", "cliente", "vendedor", "produto", "categoria", "fornecedor",
   "quantidade", "valor_venda", "valor_custo", "faturamento", "lucro", "margem_pct"]

/-- The projected table `df_display = df_filtered[cols_view]` of line 229. -/
def df_display (rows : List Row) : List (List Cell) :=
  rows.map (fun r => cols_view.filterMap (cellOf r))

/-- The CSV snapshot of lines 236-242 at table level: `to_csv(index=False)`
writes the header row of column names followed by the data rows in order,
comma-delimited. -/
def csv_export (rows : List Row) : List String × List (List Cell) :=
  (cols_view, df_display rows)

/-- Build the prepared row that `prepareRow` produces from three parsed
numeric cells: the field expressions match the all-numeric path of
`prepareRow` verbatim. -/
def mkRow (dv : DTime) (cli : Option String) (vend prod cat forn : String)
    (q vv vc : ℚ) : Row :=
  { data_venda := dv
    cliente := cli
    vendedor := vend
    produto := prod
    categoria := cat
    fornecedor := forn
    ano := dv.year
    mes := dv.month
    mes_ano := mesAno dv
    quantidade := fillna0 (PVal.num q)
    valor_venda := fillna0 (PVal.num vv)
    valor_custo := fillna0 (PVal.num vc)
    faturamento := fillna0 (pMul (PVal.num q) (PVal.num vv))
    custo_total := fillna0 (pMul (PVal.num q) (PVal.num vc))
    lucro := fillna0 (pSub (pMul (PVal.num q) (PVal.num vv)) (pMul (PVal.num q) (PVal.num vc)))
    margem_pct := fillna0 (if pNeZero (pMul (PVal.num q) (PVal.num vv))
      then pDiv (pSub (pMul (PVal.num q) (PVal.num vv)) (pMul (PVal.num q) (PVal.num vc)))
        (pMul (PVal.num q) (PVal.num vv))
      else PVal.num 0) }

/-- Example raw row: 2 units sold at 10 with unit cost 4 on 2023-01-05. -/
def exRaw1 : RawRow :=
  { data_venda := ⟨2023, 1, 5, 0⟩
    cliente := some "Ana"
    vendedor := "Vera"
    produto := "Caneta"
    categoria := "Papelaria"
    fornecedor := "Acme"
    quantidade := CellVal.num 2
    valor_venda := CellVal.num 10
    valor_custo := CellVal.num 4 }

/-- Example raw row with quantity 0 (zero revenue) on the same date. -/
def exRaw2 : RawRow :=
  { exRaw1 with cliente := some "Bia", quantidade := CellVal.num 0 }

/-- Example source holding the two raw rows. -/
def exSrc : Source := Source.rows [exRaw1, exRaw2]

/-- The prepared image of `exRaw1`. -/
def exRow1 : Row :=
  mkRow ⟨2023, 1, 5, 0⟩ (some "Ana") "Vera" "Caneta" "Papelaria" "Acme" 2 10 4

/-- The prepared image of `exRaw2`. -/
def exRow2 : Row :=
  mkRow ⟨2023, 1, 5, 0⟩ (some "Bia") "Vera" "Caneta" "Papelaria" "Acme" 0 10 4

/-- Loading the example source yields exactly the two prepared rows. -/
theorem ex_load_eval : (load_data exSrc).1 = [exRow1, exRow2] := rfl

/-- Raw row whose quantity cell is unparsable text. -/
def badRaw : RawRow := { exRaw1 with quantidade := CellVal.text "abc" }

/-- Fully evaluated prepared row: 2 units at 10, cost 4. -/
def rowL1 : Row :=
  { data_venda := ⟨2023, 1, 5, 0⟩
    cliente := some "Ana"
    vendedor := "Vera"
    produto := "Caneta"
    categoria := "Papelaria"
    fornecedor := "Acme"
    ano := 2023
    mes := 1
    mes_ano := "2023-01"
    quantidade := 2
    valor_venda := 10
    valor_custo := 4
    faturamento := 20
    custo_total := 8
    lucro := 12
    margem_pct := 3 / 5 }

/-- Fully evaluated prepared row with quantity 0: zero revenue and profit. -/
def rowL2 : Row :=
  { rowL1 with
    cliente := some "Bia"
    quantidade := 0
    faturamento := 0
    custo_total := 0
    lucro := 0
    margem_pct := 0 }

/-- The example filtered list of the specification: one normal sale and one
zero-quantity sale. -/
def exList : List Row := [rowL1, rowL2]

/-- Criteria selecting everything, with a two-letter client search. -/
def critW : Criteria :=
  { start_date := (2018, 1, 1)
    end_date := (2023, 12, 31)
    selected_years := []
    selected_cats := []
    selected_sellers := []
    selected_suppliers := []
    selected_products := []
    client_search := "bo" }

/-- Row whose client is "Bob", matched case-insensitively by "bo". -/
def rowW : Row := { rowL1 with cliente := some "Bob" }

/-- Criteria whose client search carries the regex wildcard dot. -/
def critCex : Criteria := { critW with client_search := "a.c" }

/-- Row whose client "abc" does not contain the literal text "a.c". -/
def rowCex : Row := { rowL1 with cliente := some "abc" }

/-- Revenue-10 row of category "A", first in encounter order. -/
def rowA6 : Row :=
  { rowL1 with
    categoria := "A"
    quantidade := 1
    faturamento := 10
    custo_total := 4
    lucro := 6
    margem_pct := 3 / 5 }

/-- Revenue-10 row of category "B", second in encounter order. -/
def rowB6 : Row := { rowA6 with categoria := "B", data_venda := ⟨2023, 2, 6, 0⟩ }

/-- Every row of a successfully prepared batch is the image of some raw row. -/
theorem mem_mapPrepare {rs : List RawRow} {out : List Row} {r : Row}
    (h : mapPrepare rs = Except.ok out) (hr : r ∈ out) :
    ∃ rr ∈ rs, prepareRow rr = Except.ok r := by
  induction rs generalizing out with
  | nil =>
      simp only [mapPrepare, Except.ok.injEq] at h
      subst h
      cases hr
  | cons rr0 rs0 ih =>
      simp only [mapPrepare] at h
      split at h
      case h_1 r0 rest hp hq =>
          cases h
          rcases List.mem_cons.mp hr with h0 | h0
          · exact ⟨rr0, List.mem_cons_self rr0 rs0, h0 ▸ hp⟩
          · rcases ih hq h0 with ⟨rr1, hm, he⟩
            exact ⟨rr1, List.mem_cons_of_mem rr0 hm, he⟩
      case h_2 => cases h
      case h_3 => cases h

/-- The margin guard survives every NaN path: after the per-column
`fillna(0)`, the stored margin still equals the stored profit over the
stored revenue when that revenue is nonzero, and is 0 when it is zero.
Whenever the raw margin is NaN (NaN profit or NaN revenue), the raw profit
is NaN too or the stored revenue is 0, and both sides collapse to 0. -/
theorem margem_fillna (fat lucro : PVal) :
    (fillna0 fat ≠ 0 →
      fillna0 (if pNeZero fat then pDiv lucro fat else PVal.num 0)
        = fillna0 lucro / fillna0 fat) ∧
    (fillna0 fat = 0 →
      fillna0 (if pNeZero fat then pDiv lucro fat else PVal.num 0) = 0) := by
  cases fat with
  | nan => cases lucro <;> simp [fillna0, pNeZero, pDiv]
  | num f =>
      by_cases hf : f = 0
      · subst hf
        cases lucro <;> simp [fillna0, pNeZero, pDiv]
      · cases lucro <;> simp [fillna0, pNeZero, pDiv, hf]

/-- Every row of a dataset loaded from raw rows is the prepared image of one
of those raw rows. -/
theorem mem_load_data_rows {rs : List RawRow} {r : Row}
    (hr : r ∈ (load_data (Source.rows rs)).1) :
    ∃ rr ∈ rs, prepareRow rr = Except.ok r := by
  simp only [load_data] at hr
  split at hr
  case h_1 out hout =>
      exact mem_mapPrepare hout ((List.perm_insertionSort rowLe out).subset hr)
  case h_2 => cases hr

/-- Every row of a loaded dataset is the image of some raw row. -/
theorem mem_load_data {s : Source} {r : Row} (hr : r ∈ (load_data s).1) :
    ∃ rr, prepareRow rr = Except.ok r := by
  cases s with
  | missing => cases hr
  | unreadable e => cases hr
  | rows rs =>
      rcases mem_load_data_rows hr with ⟨rr, _, he⟩
      exact ⟨rr, he⟩

/-- Membership through one conditionally applied filter step. -/
theorem mem_guard_filter {α : Type} {g : Bool} {p : α → Bool} {l : List α} {r : α} :
    r ∈ (if g then l else l.filter p) ↔ r ∈ l ∧ (g || p r) = true := by
  cases g <;> simp [List.mem_filter]

/-- The code-point order on character lists is total. -/
theorem charsLe_total (a : List Char) : ∀ b, charsLe a b = true ∨ charsLe b a = true := by
  induction a with
  | nil => intro b; left; rfl
  | cons a as ih =>
      intro b
      cases b with
      | nil => right; rfl
      | cons b bs =>
          by_cases h1 : a.toNat < b.toNat
          · left; simp [charsLe, h1]
          · by_cases h2 : b.toNat < a.toNat
            · right; simp [charsLe, h2]
            · rcases ih bs with h | h
              · left; simp [charsLe, h1, h2, h]
              · right; simp [charsLe, h1, h2, h]

/-- The code-point order on character lists is transitive. -/
theorem charsLe_trans (a : List Char) :
    ∀ b c, charsLe a b = true → charsLe b c = true → charsLe a c = true := by
  induction a with
  | nil => intro b c _ _; rfl
  | cons a as ih =>
      intro b c hab hbc
      cases b with
      | nil => simp [charsLe] at hab
      | cons b bs =>
          cases c with
          | nil => simp [charsLe] at hbc
          | cons c cs =>
              rcases Nat.lt_trichotomy a.toNat b.toNat with h1 | h1 | h1
              · rcases Nat.lt_trichotomy b.toNat c.toNat with h2 | h2 | h2
                · simp [charsLe, show a.toNat < c.toNat by omega]
                · simp [charsLe, show a.toNat < c.toNat by omega]
                · simp [charsLe, show ¬ b.toNat < c.toNat by omega, h2] at hbc
              · rcases Nat.lt_trichotomy b.toNat c.toNat with h2 | h2 | h2
                · simp [charsLe, show a.toNat < c.toNat by omega]
                · have hab2 : charsLe as bs = true := by
                    simpa [charsLe, show ¬ a.toNat < b.toNat by omega,
                      show ¬ b.toNat < a.toNat by omega] using hab
                  have hbc2 : charsLe bs cs = true := by
                    simpa [charsLe, show ¬ b.toNat < c.toNat by omega,
                      show ¬ c.toNat < b.toNat by omega] using hbc
                  simp [charsLe, show ¬ a.toNat < c.toNat by omega,
                    show ¬ c.toNat < a.toNat by omega, ih bs cs hab2 hbc2]
                · simp [charsLe, show ¬ b.toNat < c.toNat by omega, h2] at hbc
              · simp [charsLe, show ¬ a.toNat < b.toNat by omega, h1] at hab

instance : IsTotal String (boolRel strLeB) :=
  ⟨fun a b => charsLe_total a.toList b.toList⟩

instance : IsTrans String (boolRel strLeB) :=
  ⟨fun a b c hab hbc => charsLe_trans a.toList b.toList c.toList hab hbc⟩

/-- Inserting into a list sorted by value and, within ties, by a key
relation that the inserted element bears to every present element, keeps the
list sorted that way. -/
theorem pairwise_orderedInsert_val {κ : Type} {KR : κ → κ → Prop}
    (a : κ × ℚ) (s : List (κ × ℚ))
    (hs : s.Pairwise (fun x y => x.2 < y.2 ∨ (x.2 = y.2 ∧ KR x.1 y.1)))
    (ha : ∀ x ∈ s, KR a.1 x.1) :
    (List.orderedInsert valLe a s).Pairwise
      (fun x y => x.2 < y.2 ∨ (x.2 = y.2 ∧ KR x.1 y.1)) := by
  induction s with
  | nil => simp [List.orderedInsert]
  | cons b t ih =>
      rcases List.pairwise_cons.mp hs with ⟨hbt, ht⟩
      by_cases hab : valLe a b
      · simp only [List.orderedInsert]
        rw [if_pos hab]
        constructor
        · intro x hx
          rcases List.mem_cons.mp hx with rfl | hx2
          · rcases lt_or_eq_of_le hab with h | h
            · exact Or.inl h
            · exact Or.inr ⟨h, ha x (List.mem_cons_self x t)⟩
          · have hbx := hbt x hx2
            have hbx2 : b.2 ≤ x.2 := by
              rcases hbx with h | h
              · exact le_of_lt h
              · exact le_of_eq h.1
            rcases lt_or_eq_of_le (le_trans hab hbx2) with h | h
            · exact Or.inl h
            · exact Or.inr ⟨h, ha x (List.mem_cons_of_mem b hx2)⟩
        · exact hs
      · simp only [List.orderedInsert]
        rw [if_neg hab]
        have hba : b.2 < a.2 := lt_of_not_le hab
        constructor
        · intro y hy
          have hy2 : y ∈ a :: t := (List.perm_orderedInsert valLe a t).subset hy
          rcases List.mem_cons.mp hy2 with rfl | hy3
          · exact Or.inl hba
          · exact hbt y hy3
        · exact ih ht (fun x hx => ha x (List.mem_cons_of_mem b hx))

/-- A stable insertion sort by value of a list whose keys are strictly
increasing (for a key relation) is sorted by value with ties in key order. -/
theorem pairwise_insertionSort_val {κ : Type} {KR : κ → κ → Prop}
    (l : List (κ × ℚ)) (hl : l.Pairwise (fun x y => KR x.1 y.1)) :
    (List.insertionSort valLe l).Pairwise
      (fun x y => x.2 < y.2 ∨ (x.2 = y.2 ∧ KR x.1 y.1)) := by
  induction l with
  | nil => simp [List.insertionSort]
  | cons a t ih =>
      rcases List.pairwise_cons.mp hl with ⟨hat, htl⟩
      simp only [List.insertionSort]
      exact pairwise_orderedInsert_val a _ (ih htl)
        (fun x hx => hat x ((List.perm_insertionSort valLe t).subset hx))

/-- The grouped sums carry strictly increasing keys: the grouping step emits
each distinct key once, in ascending code-point order. -/
theorem groupSumSorted_key_strict (key : Row → String) (val : Row → ℚ) (rows : List Row) :
    (groupSumSorted strLeB key val rows).Pairwise (fun x y => keyLt x.1 y.1) := by
  have hs : (groupKeysSorted strLeB key rows).Pairwise (boolRel strLeB) :=
    List.sorted_insertionSort (boolRel strLeB) ((rows.map key).dedup)
  have hn : (groupKeysSorted strLeB key rows).Pairwise (fun a b => a ≠ b) :=
    (List.perm_insertionSort (boolRel strLeB) ((rows.map key).dedup)).nodup_iff.mpr
      (List.nodup_dedup (rows.map key))
  have hsn := hs.and hn
  exact List.pairwise_map.mpr (hsn.imp (fun h => h))

/-- Splitting a mapped sum along a boolean predicate. -/
theorem sum_filter_split {β : Type} (p : β → Bool) (f : β → ℚ) (l : List β) :
    ((l.filter p).map f).sum + ((l.filter (fun a => !(p a))).map f).sum
      = (l.map f).sum := by
  induction l with
  | nil => simp
  | cons a t ih =>
      by_cases h : p a = true
      · simp only [List.filter_cons, h, if_pos, List.map_cons, List.sum_cons,
          Bool.not_true, Bool.false_eq_true, if_neg, not_false_iff]
        rw [add_assoc, ih]
      · have h2 : p a = false := by
          cases hpa : p a
          · rfl
          · exact absurd hpa h
        simp only [List.filter_cons, h2, Bool.false_eq_true, if_neg, not_false_iff,
          Bool.not_false, if_pos, List.map_cons, List.sum_cons]
        rw [← ih]
        ring

/-- Summing group sums over a duplicate-free covering key list gives the
total sum. -/
theorem sum_over_keys {α β : Type} [DecidableEq α] (key : β → α) (val : β → ℚ) :
    ∀ (keys : List α) (rows : List β), keys.Nodup → (∀ r ∈ rows, key r ∈ keys) →
    (keys.map (fun k => ((rows.filter (fun r => decide (key r = k))).map val).sum)).sum
      = (rows.map val).sum := by
  intro keys
  induction keys with
  | nil =>
      intro rows _ hcov
      cases rows with
      | nil => simp
      | cons r t => exact absurd (hcov r (List.mem_cons_self r t)) (List.not_mem_nil _)
  | cons k ks ih =>
      intro rows hnd hcov
      have hk : k ∉ ks := (List.nodup_cons.mp hnd).1
      have hnd2 : ks.Nodup := (List.nodup_cons.mp hnd).2
      have hstep : ∀ k2 ∈ ks,
          ((rows.filter (fun r => !(decide (key r = k)))).filter
            (fun r => decide (key r = k2)))
          = rows.filter (fun r => decide (key r = k2)) := by
        intro k2 hk2
        rw [List.filter_filter]
        apply List.filter_congr
        intro r _
        have hne2 : k2 ≠ k := fun h => hk (h ▸ hk2)
        by_cases hx : key r = k2
        · simp [hx, hne2]
        · simp [hx]
      have hcov2 : ∀ r ∈ rows.filter (fun r => !(decide (key r = k))), key r ∈ ks := by
        intro r hr
        rcases List.mem_filter.mp hr with ⟨hr1, hr2⟩
        have hne : key r ≠ k := by
          intro h
          simp [h] at hr2
        rcases List.mem_cons.mp (hcov r hr1) with h | h
        · exact absurd h hne
        · exact h
      have hmain := ih (rows.filter (fun r => !(decide (key r = k)))) hnd2 hcov2
      have hmaps :
          (ks.map (fun k2 => ((rows.filter (fun r => decide (key r = k2))).map val).sum))
          = ks.map (fun k2 =>
              (((rows.filter (fun r => !(decide (key r = k)))).filter
                (fun r => decide (key r = k2))).map val).sum) := by
        apply List.map_congr_left
        intro k2 hk2
        rw [hstep k2 hk2]
      calc ((k :: ks).map
              (fun k2 => ((rows.filter (fun r => decide (key r = k2))).map val).sum)).sum
          = ((rows.filter (fun r => decide (key r = k))).map val).sum
              + (ks.map (fun k2 =>
                  ((rows.filter (fun r => decide (key r = k2))).map val).sum)).sum := by
            simp
        _ = ((rows.filter (fun r => decide (key r = k))).map val).sum
              + ((rows.filter (fun r => !(decide (key r = k)))).map val).sum := by
            rw [hmaps, hmain]
        _ = (rows.map val).sum := sum_filter_split _ val rows

/-- The distinct sorted key list is duplicate-free. -/
theorem groupKeysSorted_nodup {α : Type} [DecidableEq α] (leB : α → α → Bool)
    (key : Row → α) (rows : List Row) : (groupKeysSorted leB key rows).Nodup :=
  (List.perm_insertionSort (boolRel leB) ((rows.map key).dedup)).nodup_iff.mpr
    (List.nodup_dedup (rows.map key))

/-- The key of every row occurs in the distinct sorted key list. -/
theorem mem_groupKeysSorted {α : Type} [DecidableEq α] (leB : α → α → Bool)
    (key : Row → α) {rows : List Row} {r : Row} (hr : r ∈ rows) :
    key r ∈ groupKeysSorted leB key rows := by
  unfold groupKeysSorted
  rw [(List.perm_insertionSort (boolRel leB) ((rows.map key).dedup)).mem_iff]
  rw [List.mem_dedup]
  exact List.mem_map_of_mem key hr

/-- C1: for every prepared record, margem_pct equals lucro divided by
faturamento when faturamento is nonzero, and is exactly 0 when faturamento
is zero; the guard of app.py lines 33-36 makes the computation total (no
exception, no stored NaN or infinity), including rows whose quantity is 0,
and the property also survives the NaN paths of missing cells, where the
`fillna(0)` of line 41 zeroes a NaN profit and a NaN margin together. -/
theorem margem_pct_guard (s : Source) (r : Row) (hr : r ∈ (load_data s).1) :
    (r.faturamento ≠ 0 → r.margem_pct = r.lucro / r.faturamento) ∧
    (r.faturamento = 0 → r.margem_pct = 0) := by
  rcases mem_load_data hr with ⟨rr, hrr⟩
  unfold prepareRow at hrr
  split at hrr
  case h_1 q vv vc hq hvv hvc =>
      cases hrr
      exact margem_fillna (pMul q vv) (pSub (pMul q vv) (pMul q vc))
  case h_2 => cases hrr
  case h_3 => cases hrr
  case h_4 => cases hrr

/-- Witness for C1 at the example of the specification: the quantity-0 row of the
example source has margin exactly 0. -/
theorem margem_pct_guard_witness : exRow2.margem_pct = 0 :=
  (margem_pct_guard exSrc exRow2
    (by rw [ex_load_eval]; exact List.mem_cons_of_mem _ (List.mem_cons_self _ _))).2
    (zero_mul 10)

/-- C7: when the source is missing or structurally unreadable, load_data
returns an empty dataset together with a surfaced message (app.py
lines 44-49), and being a total function it never raises: the caller can
distinguish the empty-data state from a crash by the message. -/
theorem load_failure_empty (s : Source)
    (h : s = Source.missing ∨ ∃ e, s = Source.unreadable e) :
    (load_data s).1 = [] ∧ (load_data s).2.isSome = true := by
  rcases h with h | ⟨e, h⟩ <;> subst h <;> exact ⟨rfl, rfl⟩

/-- Witness for C7 at the missing-file source. -/
theorem load_failure_empty_witness :
    (load_data Source.missing).1 = [] ∧ (load_data Source.missing).2.isSome = true :=
  load_failure_empty Source.missing (Or.inl rfl)

/-- C5: evaluation at the failing input.  A single unparsable quantity cell
makes the whole load return the EMPTY dataset plus an error message — not
the full dataset with that cell coerced to 0 — because the derived-column
arithmetic of app.py lines 28-30 consumes the raw cell and raises before the
to_numeric coercion of lines 39-41 runs; the except of line 47 then discards
everything.  The same source without the bad row loads its one row fine. -/
theorem bad_cell_aborts_load :
    (load_data (Source.rows [exRaw1, badRaw])).1 = [] ∧
    (load_data (Source.rows [exRaw1, badRaw])).2.isSome = true ∧
    (load_data (Source.rows [exRaw1])).1.length = 1 :=
  ⟨rfl, rfl, rfl⟩

/-- C4: the scalar metrics of app.py lines 126-131 use the zero-guard
pattern: margem_global is the profit/revenue ratio only when total revenue
is positive and 0 otherwise, ticket_medio is revenue/count only when the
count is positive and 0 otherwise, and on the empty filtered result both
are 0; over exact rationals the guarded computation is total (never raises,
never yields NaN or infinity). -/
theorem metrics_zero_guard (rows : List Row) :
    (0 < total_faturamento rows →
      margem_global rows = total_lucro rows / total_faturamento rows) ∧
    (¬ 0 < total_faturamento rows → margem_global rows = 0) ∧
    (0 < num_vendas rows →
      ticket_medio rows = total_faturamento rows / (num_vendas rows : ℚ)) ∧
    (num_vendas rows = 0 → ticket_medio rows = 0) ∧
    (rows = [] → margem_global rows = 0 ∧ ticket_medio rows = 0) := by
  refine ⟨fun h => ?_, fun h => ?_, fun h => ?_, fun h => ?_, fun h => ?_⟩
  · simp only [margem_global]
    rw [if_pos h]
  · simp only [margem_global]
    rw [if_neg h]
  · simp only [ticket_medio]
    rw [if_pos h]
  · simp only [ticket_medio]
    rw [if_neg (by omega)]
  · subst h
    constructor
    · simp [margem_global, total_faturamento]
    · simp [ticket_medio, num_vendas]

/-- Witness for C4 at the two-row example of the specification: total revenue 20
is positive and both guarded ratios are taken. -/
theorem metrics_zero_guard_witness :
    0 < total_faturamento exList ∧
    margem_global exList = total_lucro exList / total_faturamento exList ∧
    ticket_medio exList = total_faturamento exList / (num_vendas exList : ℚ) :=
  ⟨by norm_num [total_faturamento, exList, rowL1, rowL2],
   (metrics_zero_guard exList).1 (by norm_num [total_faturamento, exList, rowL1, rowL2]),
   (metrics_zero_guard exList).2.2.1 (by norm_num [num_vendas, exList])⟩

/-- C3 (amended): a record is in the filtered result if and only if it
satisfies the conjunction of the date-range test (inclusive, at
calendar-date granularity), each categorical allow-list (an empty selection
accepts everything), and the client test (skipped when the search text is
empty; a missing client never matches a non-empty search).  The client test
is a case-insensitive regular-expression search, not a plain substring
test: `Series.str.contains` keeps its default `regex=True`, so a dot in the
search text matches any character.  The embedding models the regex exactly
for search strings whose only metacharacter is the dot, whence the
hypothesis. -/
theorem mem_apply_filters (crit : Criteria) (rows : List Row) (r : Row)
    (_hpat : simpleSearch crit.client_search = true) :
    r ∈ apply_filters crit rows ↔ r ∈ rows ∧ conjPred crit r = true := by
  simp only [apply_filters, conjPred, mem_guard_filter, List.mem_filter,
    Bool.and_eq_true, Bool.or_eq_true, and_assoc]

/-- Witness for C3: the client search "bo" matches the client "Bob"
case-insensitively, and with empty selections the row passes every filter. -/
theorem mem_apply_filters_witness : rowW ∈ apply_filters critW [rowW] :=
  (mem_apply_filters critW [rowW] rowW (by decide)).mpr
    ⟨List.mem_cons_self rowW [], by decide⟩

/-- Counterexample for C3 as stated: under the search text "a.c" the code
keeps the row whose client is "abc" (the dot is a regex wildcard), while the
plain case-insensitive substring test of the specification rejects it, so
membership in the filtered result is not equivalent to the specified
conjunction with a substring client test. -/
theorem client_regex_cex :
    rowCex ∈ apply_filters critCex [rowCex] ∧
    specClientSubstring critCex.client_search rowCex.cliente = false := by
  constructor
  · have h : apply_filters critCex [rowCex] = [rowCex] := rfl
    exact h.symm ▸ List.mem_cons_self rowCex []
  · rfl

/-- C6 (amended): every descending top-10 leaderboard lists its groups by
summed revenue in strictly descending order, and lists groups of equal
summed revenue in strictly DESCENDING group-key order — not in encounter
order: `groupby` (default `sort=True`) emits the groups in ascending key
order, and pandas executes `sort_values(ascending=False)` by reversing a
stable ASCENDING argsort (`pandas.core.sorting.nargsort`), which reverses
the relative order of ties.  The result is deterministic.  The stable
insertion sort in the embedding matches the default numpy sort exactly below
17 elements, whence the bound on the number of groups. -/
theorem top10_desc_order (key : Row → String) (rows : List Row)
    (_hsmall : (groupSumSorted strLeB key (fun r => r.faturamento) rows).length ≤ 16) :
    (top10 key rows).Pairwise rankLt := by
  have h1 := groupSumSorted_key_strict key (fun r => r.faturamento) rows
  have h2 := pairwise_insertionSort_val _ h1
  have h3 : ((List.insertionSort valLe
      (groupSumSorted strLeB key (fun r => r.faturamento) rows)).reverse).Pairwise rankLt :=
    List.pairwise_reverse.mpr (h2.imp (fun h => h))
  exact List.Pairwise.sublist (List.take_sublist _ _) h3

/-- Witness for C6 at a one-row dataset. -/
theorem top10_desc_order_witness :
    (top10 (fun r => r.categoria) [rowA6]).Pairwise rankLt :=
  top10_desc_order (fun r => r.categoria) [rowA6] (by decide)

/-- Counterexample for C6 as stated: categories "A" and "B" have equal
summed revenue and "A" is encountered first, yet the leaderboard lists "B"
first — the tie is broken by descending key order, not by encounter order. -/
theorem fat_por_cat_tie_cex :
    [rowA6, rowB6].map (fun r => r.categoria) = ["A", "B"] ∧
    fat_por_cat [rowA6, rowB6] = [("B", (10 : ℚ)), ("A", 10)] := by
  constructor
  · rfl
  · have h1 : groupSumSorted strLeB (fun r => r.categoria) (fun r => r.faturamento)
        [rowA6, rowB6]
        = [("A", (([rowA6, rowB6].filter
              (fun r => decide (r.categoria = "A"))).map (fun r => r.faturamento)).sum),
           ("B", (([rowA6, rowB6].filter
              (fun r => decide (r.categoria = "B"))).map (fun r => r.faturamento)).sum)] := rfl
    have hfA : [rowA6, rowB6].filter (fun r => decide (r.categoria = "A")) = [rowA6] := rfl
    have hfB : [rowA6, rowB6].filter (fun r => decide (r.categoria = "B")) = [rowB6] := rfl
    have hg : groupSumSorted strLeB (fun r => r.categoria) (fun r => r.faturamento)
        [rowA6, rowB6] = [("A", (10 : ℚ)), ("B", 10)] := by
      rw [h1, hfA, hfB]
      norm_num [rowA6, rowB6, rowL1]
    simp only [fat_por_cat, top10, sortValuesDesc, hg]
    rfl

/-- C9: the CSV snapshot of the filtered view carries exactly the twelve
columns of app.py line 228, in that order, with a header row, and its data
rows are exactly the filtered rows in their current order (one cell list
per row, projecting those twelve fields). -/
theorem csv_export_columns (rows : List Row) :
    (csv_export rows).1 =
      ["data_venda", "cliente", "vendedor", "produto", "categoria", "fornecedor",
       "quantidade", "valor_venda", "valor_custo", "faturamento", "lucro", "margem_pct"] ∧
    (csv_export rows).2 = rows.map (fun r =>
      [Cell.dt r.data_venda, Cell.opt r.cliente, Cell.txt r.vendedor, Cell.txt r.produto,
       Cell.txt r.categoria, Cell.txt r.fornecedor, Cell.num r.quantidade,
       Cell.num r.valor_venda, Cell.num r.valor_custo, Cell.num r.faturamento,
       Cell.num r.lucro, Cell.num r.margem_pct]) := by
  refine ⟨rfl, ?_⟩
  show df_display rows = _
  unfold df_display
  apply List.map_congr_left
  intro r _
  rfl

/-- Intermediate for C10: the second components of any grouped sum add up to
the plain sum of the metric over the rows. -/
theorem groupSumSorted_snd_sum {α : Type} [DecidableEq α] (leB : α → α → Bool)
    (key : Row → α) (val : Row → ℚ) (rows : List Row) :
    ((groupSumSorted leB key val rows).map (fun kv => kv.2)).sum
      = (rows.map val).sum := by
  unfold groupSumSorted
  rw [List.map_map]
  exact sum_over_keys key val (groupKeysSorted leB key rows) rows
    (groupKeysSorted_nodup leB key rows)
    (fun r hr => mem_groupKeysSorted leB key hr)

/-- C10: for every grouping key, the per-group aggregated revenues sum to
total_faturamento of the same filtered rows, and the per-group aggregated
profits sum to total_lucro: grouping partitions the totals without loss or
double counting. -/
theorem group_sum_partition {α : Type} [DecidableEq α] (leB : α → α → Bool)
    (key : Row → α) (rows : List Row) :
    ((groupSumSorted leB key (fun r => r.faturamento) rows).map (fun kv => kv.2)).sum
        = total_faturamento rows ∧
    ((groupSumSorted leB key (fun r => r.lucro) rows).map (fun kv => kv.2)).sum
        = total_lucro rows :=
  ⟨groupSumSorted_snd_sum leB key (fun r => r.faturamento) rows,
   groupSumSorted_snd_sum leB key (fun r => r.lucro) rows⟩
